import Mathlib

/-!
Verification of the artifact-grouping / artifact-generation subsystem
(`relay-compiler/src/build_project/generate_artifacts.rs`) and of the
TypeScript resolver schema-extraction subsystem
(`relay-schema-generation/src/typescript.rs`) of the repository.

Shallow embedding conventions:
* interned string keys (`StringKey`) and source locations
  (`SourceLocationKey`) are modelled as `Nat`;
* the four IR programs are lists of definitions; the directive-lookup
  helpers (`SplitOperationMetadata::find` and friends, which live in the
  external `relay-transforms` crate) are modelled as `Option` fields on the
  definitions, holding the payload the lookup would return;
* Rust panics (`panic!`, `expect`, `unwrap`) are modelled as the `error`
  branch of `Except String`, carrying the panic message;
* hash maps are modelled as association lists with insert/overwrite
  semantics matching Rust `HashMap::insert` and the `Entry` API.
-/

/-- Interned string key (document or fragment name). -/
abbrev StringKey := Nat

/-- Source location key identifying the originating source file of a
definition (`common::SourceLocationKey`). -/
abbrev SourceLocationKey := Nat

/-- Minimal model of `WithLocation<StringKey>`: the item together with the
source location key of its location (`name.location.source_location()`). -/
structure WithLoc where
  item : StringKey
  sourceLocation : SourceLocationKey
deriving DecidableEq, Repr

/-- Model of `relay_transforms::RawResponseGenerationMode`; the generator
only distinguishes `AllFieldsRequired` from any other mode. -/
inductive RawResponseGenerationMode where
  | AllFieldsRequired
  | AllFieldsOptional
deriving DecidableEq, Repr

/-- Modelled from the spec: payload of the split-operation metadata
directive (`relay_transforms::SplitOperationMetadata`, external to src/);
the generator reads its location, derived-from name, raw-response mode and
parent-document list. -/
structure SplitOperationMetadata where
  location : SourceLocationKey
  derived_from : Option StringKey
  raw_response_type_generation_mode : Option RawResponseGenerationMode
  parent_documents : List StringKey
deriving DecidableEq, Repr

/-- Model of `graphql_ir::OperationDefinition` restricted to what the
generator inspects.  The `Option` fields model the result of the
corresponding directive lookups on `directives`
(`SplitOperationMetadata::find`, `ArtifactSourceKeyData::find`,
`RefetchableDerivedFromMetadata::find`,
`ClientEdgeGeneratedQueryMetadataDirective::find`), and `updatable` models
`directives.named(*UPDATABLE_DIRECTIVE).is_some()`. -/
structure OperationDefinition where
  name : WithLoc
  split_metadata : Option SplitOperationMetadata
  artifact_source_key_data : Option Nat
  refetchable_derived_from : Option StringKey
  client_edge_metadata : Option WithLoc
  updatable : Bool
deriving DecidableEq, Repr

/-- Model of `graphql_ir::FragmentDefinition` restricted to what the
generator inspects. -/
structure FragmentDefinition where
  name : WithLoc
  type_condition : StringKey
  client_edge_metadata : Option WithLoc
  artifact_source_key_data : Option Nat
deriving DecidableEq, Repr

/-- The four IR programs plus the source program, as consumed by
`generate_artifacts` (`relay_transforms::Programs`). -/
structure Programs where
  normalization_operations : List OperationDefinition
  operation_text_operations : List OperationDefinition
  reader_operations : List OperationDefinition
  typegen_operations : List OperationDefinition
  reader_fragments : List FragmentDefinition
  typegen_fragments : List FragmentDefinition
  source_fragments : List FragmentDefinition
deriving DecidableEq, Repr

/-- Model of `crate::artifact_map::ArtifactSourceKey`. -/
inductive ArtifactSourceKey where
  | ExecutableDefinition (name : StringKey)
  | ResolverHash (hash : Nat)
deriving DecidableEq, Repr

/-- Model of `ArtifactContent`, restricted to the payloads constructed in
`generate_artifacts.rs`. -/
inductive ArtifactContent where
  | SplitOperation (normalization_operation : OperationDefinition)
      (typegen_operation : Option OperationDefinition)
      (no_optional_fields_in_raw_response_type : Bool)
      (source_hash : Option Nat)
  | Operation (normalization_operation reader_operation typegen_operation :
      OperationDefinition)
      (operation_text : Option OperationDefinition)
      (source_hash : Nat) (text : Option Nat) (id_and_text_hash : Option Nat)
  | UpdatableQuery (reader_operation typegen_operation : OperationDefinition)
      (source_hash : Nat)
  | Fragment (reader_fragment typegen_fragment : FragmentDefinition)
      (source_hash : Option Nat)
  | TMPMixedGraphQL (artifacts : List ArtifactContent)
deriving Repr

/-- Model of the generated output `Artifact` descriptor. -/
structure Artifact where
  artifact_source_keys : List ArtifactSourceKey
  path : Nat
  content : ArtifactContent
  source_file : SourceLocationKey
deriving Repr

/-- Operation with the same source location from the different programs
(`OperationGroup` in `generate_artifacts.rs`). -/
structure OperationGroup where
  normalization : Option OperationDefinition
  operation_text : Option OperationDefinition
  reader : Option OperationDefinition
  typegen : Option OperationDefinition
deriving DecidableEq, Repr

/-- `OperationGroup::new`. -/
def OperationGroup.new : OperationGroup :=
  { normalization := none, operation_text := none, reader := none,
    typegen := none }

/-- Insert with overwrite, modelling `HashMap::insert` (and the overwrite
behaviour of `collect` on duplicate keys). -/
def hmInsert (m : List (SourceLocationKey × OperationGroup))
    (k : SourceLocationKey) (v : OperationGroup) :
    List (SourceLocationKey × OperationGroup) :=
  match m with
  | [] => [(k, v)]
  | (k0, v0) :: rest =>
    if k0 = k then (k, v) :: rest else (k0, v0) :: hmInsert rest k v

/-- Modelling `map.entry(k).or_insert_with(OperationGroup::new)` followed by
a field assignment `f`. -/
def hmUpdate (m : List (SourceLocationKey × OperationGroup))
    (k : SourceLocationKey) (f : OperationGroup → OperationGroup) :
    List (SourceLocationKey × OperationGroup) :=
  match m with
  | [] => [(k, f OperationGroup.new)]
  | (k0, v0) :: rest =>
    if k0 = k then (k0, f v0) :: rest else (k0, v0) :: hmUpdate rest k f

/-- Association-list lookup for the grouped-operations map. -/
def hmFind (m : List (SourceLocationKey × OperationGroup))
    (k : SourceLocationKey) : Option OperationGroup :=
  match m with
  | [] => none
  | (k0, v0) :: rest => if k0 = k then some v0 else hmFind rest k

/-- The seeded group for one normalization definition (the record literal
built in the seeding `map` of `group_operations`). -/
def seedGroup (n : OperationDefinition) : OperationGroup :=
  { normalization := some n, operation_text := none, reader := none,
    typegen := none }

/-- Model of `group_operations`: seed the map from the normalization
program keyed by `name.location.source_location()`, then fill the
`operation_text`, `reader` and `typegen` slots via entry/or-insert. -/
def group_operations (programs : Programs) :
    List (SourceLocationKey × OperationGroup) :=
  let m := programs.normalization_operations.foldl
    (fun m n => hmInsert m n.name.sourceLocation (seedGroup n)) []
  let m := programs.operation_text_operations.foldl
    (fun m o => hmUpdate m o.name.sourceLocation
      (fun g => { g with operation_text := some o })) m
  let m := programs.reader_operations.foldl
    (fun m o => hmUpdate m o.name.sourceLocation
      (fun g => { g with reader := some o })) m
  let m := programs.typegen_operations.foldl
    (fun m o => hmUpdate m o.name.sourceLocation
      (fun g => { g with typegen := some o })) m
  m

/-- `OperationGroup::expect_reader`; the `error` branch models the panic. -/
def OperationGroup.expect_reader (g : OperationGroup) :
    Except String OperationDefinition :=
  let normal_name := match g.normalization with
    | some n => toString n.name.item
    | none => "MISSING_ENTRY"
  match g.reader with
  | some r => Except.ok r
  | none =>
    Except.error ("Expected to have a reader operation for " ++ normal_name)

/-- `OperationGroup::expect_typegen`; the `error` branch models the panic. -/
def OperationGroup.expect_typegen (g : OperationGroup) :
    Except String OperationDefinition :=
  let normal_name := match g.normalization with
    | some n => toString n.name.item
    | none => "MISSING_ENTRY"
  match g.typegen with
  | some t => Except.ok t
  | none =>
    Except.error ("Expected to have a typegen operation for " ++ normal_name)

/-- Model of `generate_normalization_artifact`.  `printer` stands for the
external `OperationPrinter` and `path_for_artifact` for
`ProjectConfig::path_for_artifact`. -/
def generate_normalization_artifact
    (printer : OperationDefinition → Nat)
    (path_for_artifact : SourceLocationKey → StringKey → Nat)
    (artifact_source : ArtifactSourceKey)
    (operations : OperationGroup)
    (source_hash : Nat) (source_file : SourceLocationKey) :
    Except String Artifact := do
  let text := operations.operation_text.map printer
  let normalization ← match operations.normalization with
    | some n => Except.ok n
    | none => Except.error ("Operations must have a normalization entry.")
  let reader ← operations.expect_reader
  let typegen ← operations.expect_typegen
  Except.ok
    { artifact_source_keys := [artifact_source]
      path := path_for_artifact source_file normalization.name.item
      content := ArtifactContent.Operation normalization reader typegen
        operations.operation_text source_hash text none
      source_file := normalization.name.sourceLocation }

/-- Model of `generate_updatable_query_artifact`. -/
def generate_updatable_query_artifact
    (path_for_artifact : SourceLocationKey → StringKey → Nat)
    (artifact_source : ArtifactSourceKey)
    (operations : OperationGroup)
    (source_hash : Nat) (source_file : SourceLocationKey) :
    Except String Artifact := do
  let reader ← match operations.reader with
    | some r => Except.ok r
    | none => Except.error ("Updatable operations must have a reader entry.")
  let typegen ← operations.expect_typegen
  Except.ok
    { artifact_source_keys := [artifact_source]
      path := path_for_artifact source_file reader.name.item
      content := ArtifactContent.UpdatableQuery reader typegen source_hash
      source_file := reader.name.sourceLocation }

/-- Lookup of a fragment by name in a program (`Program::fragment`). -/
def fragment_by_name (fragments : List FragmentDefinition)
    (name : StringKey) : Option FragmentDefinition :=
  fragments.find? (fun f => f.name.item == name)

/-- Model of the per-group closure inside `generate_artifacts`
(lines 62-168): classify one `OperationGroup` and produce its artifact.
`source_hashes` models the `SourceHashes` lookup table; the `error` branch
models the panics (`expect`, `unwrap`, and the final `panic!`). -/
def generate_operation_group
    (printer : OperationDefinition → Nat)
    (path_for_artifact : SourceLocationKey → StringKey → Nat)
    (source_hashes : StringKey → Option Nat)
    (programs : Programs)
    (operations : OperationGroup) : Except String Artifact :=
  match operations.normalization with
  | some normalization =>
    match normalization.split_metadata with
    | some metadata =>
      let source_file := metadata.location
      let source_hash := metadata.derived_from.bind source_hashes
      let typegen_operation :=
        if metadata.raw_response_type_generation_mode.isSome then
          some normalization
        else none
      let artifact_source_keys :=
        match normalization.artifact_source_key_data with
        | some hash => [ArtifactSourceKey.ResolverHash hash]
        | none => metadata.parent_documents.map
            ArtifactSourceKey.ExecutableDefinition
      Except.ok
        { artifact_source_keys
          path := path_for_artifact source_file normalization.name.item
          content := ArtifactContent.SplitOperation normalization
            typegen_operation
            (metadata.raw_response_type_generation_mode =
              some RawResponseGenerationMode.AllFieldsRequired)
            source_hash
          source_file }
    | none =>
      match normalization.refetchable_derived_from with
      | some source_name =>
        match fragment_by_name programs.source_fragments source_name with
        | none =>
          Except.error
            ("Expected the source document for the SplitOperation to exist.")
        | some source_fragment =>
          match source_hashes source_name with
          | none => Except.error ("called Option::unwrap on a None value")
          | some source_hash =>
            generate_normalization_artifact printer path_for_artifact
              (ArtifactSourceKey.ExecutableDefinition source_name)
              operations source_hash source_fragment.name.sourceLocation
      | none =>
        match normalization.client_edge_metadata with
        | some client_edges_directive =>
          let source_name := client_edges_directive.item
          let source_file := client_edges_directive.sourceLocation
          match source_hashes source_name with
          | none => Except.error ("called Option::unwrap on a None value")
          | some source_hash =>
            generate_normalization_artifact printer path_for_artifact
              (ArtifactSourceKey.ExecutableDefinition source_name)
              operations source_hash source_file
        | none =>
          match source_hashes normalization.name.item with
          | none => Except.error ("called Option::unwrap on a None value")
          | some source_hash =>
            generate_normalization_artifact printer path_for_artifact
              (ArtifactSourceKey.ExecutableDefinition normalization.name.item)
              operations source_hash normalization.name.sourceLocation
  | none =>
    match operations.reader with
    | some reader =>
      if reader.updatable then
        match source_hashes reader.name.item with
        | none => Except.error ("called Option::unwrap on a None value")
        | some source_hash =>
          generate_updatable_query_artifact path_for_artifact
            (ArtifactSourceKey.ExecutableDefinition reader.name.item)
            operations source_hash reader.name.sourceLocation
      else
        Except.error
          ("Expected at least one of an @updatable reader AST, or normalization AST to be present")
    | none =>
      Except.error
        ("Expected at least one of an @updatable reader AST, or normalization AST to be present")

/-- Model of `generate_reader_artifact` together with the per-fragment
closure in `generate_artifacts` (lines 169-203). -/
def generate_reader_fragment_artifact
    (path_for_artifact : SourceLocationKey → StringKey → Nat)
    (source_hashes : StringKey → Option Nat)
    (programs : Programs)
    (reader_fragment : FragmentDefinition) : Except String Artifact :=
  let source_name :=
    match reader_fragment.client_edge_metadata with
    | some client_edges_directive => client_edges_directive.item
    | none => reader_fragment.name.item
  let source_hash := source_hashes source_name
  let artifact_source_keys :=
    match reader_fragment.artifact_source_key_data with
    | some hash => [ArtifactSourceKey.ResolverHash hash]
    | none => [ArtifactSourceKey.ExecutableDefinition source_name]
  match fragment_by_name programs.typegen_fragments reader_fragment.name.item
  with
  | none =>
    Except.error ("a type fragment should be generated for this fragment")
  | some typegen_fragment =>
    Except.ok
      { artifact_source_keys
        path := path_for_artifact reader_fragment.name.sourceLocation
          reader_fragment.name.item
        content := ArtifactContent.Fragment reader_fragment typegen_fragment
          source_hash
        source_file := reader_fragment.name.sourceLocation }

/-- Model of `relay_config::TypegenLanguage`, restricted to the distinction
the generator makes. -/
inductive TypegenLanguage where
  | TypeScript
  | Flow
  | JavaScript
  | TMPGraphQLToTypeScript
deriving DecidableEq, Repr

/-- One step of the `BTreeMap<SourceLocationKey, Vec<Artifact>>` grouping
loop: push `a` onto the bucket of key `k`, keeping keys sorted ascending
(BTreeMap iteration order). -/
def btreePush (m : List (SourceLocationKey × List Artifact))
    (k : SourceLocationKey) (a : Artifact) :
    List (SourceLocationKey × List Artifact) :=
  match m with
  | [] => [(k, [a])]
  | (k0, v0) :: rest =>
    if k < k0 then (k, [a]) :: (k0, v0) :: rest
    else if k0 = k then (k0, v0 ++ [a]) :: rest
    else (k0, v0) :: btreePush rest k a

/-- Association-list lookup for the per-source-file artifact buckets. -/
def bucketFind (m : List (SourceLocationKey × List Artifact))
    (k : SourceLocationKey) : Option (List Artifact) :=
  match m with
  | [] => none
  | (k0, v0) :: rest => if k0 = k then some v0 else bucketFind rest k

/-- The body of the merging loop for one source-file bucket: concatenate
the source keys, collect the contents, and take the (last) path. -/
def merge_bucket (source_file : SourceLocationKey)
    (grouped_artifacts : List Artifact) : Artifact :=
  { artifact_source_keys :=
      (grouped_artifacts.map (fun a => a.artifact_source_keys)).flatten
    path := ((grouped_artifacts.map (fun a => a.path)).getLast?).getD 0
    content := ArtifactContent.TMPMixedGraphQL
      (grouped_artifacts.map (fun a => a.content))
    source_file := source_file }

/-- Model of the post-processing step of `generate_artifacts`
(lines 205-236): in the `TMPGraphQLToTypeScript` output mode, regroup the
artifacts by source file and emit one merged artifact per file; in every
other mode return the artifacts unchanged. -/
def generate_artifacts_post (language : TypegenLanguage)
    (artifacts : List Artifact) : List Artifact :=
  match language with
  | TypegenLanguage.TMPGraphQLToTypeScript =>
    let grouped_artifacts := artifacts.foldl
      (fun m a => btreePush m a.source_file a) []
    grouped_artifacts.map (fun e => merge_bucket e.1 e.2)
  | _ => artifacts

/-- Model of the whole of `generate_artifacts`: per-group artifacts chained
with per-reader-fragment artifacts, then the output-mode post-processing. -/
def generate_artifacts
    (printer : OperationDefinition → Nat)
    (path_for_artifact : SourceLocationKey → StringKey → Nat)
    (source_hashes : StringKey → Option Nat)
    (language : TypegenLanguage)
    (programs : Programs) : Except String (List Artifact) := do
  let operation_artifacts ← (group_operations programs).mapM
    (fun e => generate_operation_group printer path_for_artifact
      source_hashes programs e.2)
  let fragment_artifacts ← programs.reader_fragments.mapM
    (generate_reader_fragment_artifact path_for_artifact source_hashes
      programs)
  Except.ok (generate_artifacts_post language
    (operation_artifacts ++ fragment_artifacts))

/-- Subset of `swc_ecma_ast::TsKeywordTypeKind` relevant to extraction. -/
inductive TsKeywordKind where
  | stringKw
  | numberKw
  | booleanKw
  | nullKw
  | undefinedKw
  | otherKw
deriving DecidableEq, Repr

/-- Subset of `swc_ecma_ast::TsLit`. -/
inductive TsLitKind where
  | boolLit (b : Bool)
  | strLit (s : String)
  | otherLit
deriving DecidableEq, Repr

/-- Model of `swc_ecma_ast::TsEntityName`: a qualified name (of which only
the rightmost identifier is reported in diagnostics) or an identifier. -/
inductive TsEntityName where
  | qualified (right : String)
  | ident (name : String)
deriving DecidableEq, Repr

/-- Model of the subset of `swc_ecma_ast::TsType` the extractor handles.
`typeRef` carries the optional type-parameter list (`type_params`);
`typeLit` carries the member property signatures (identifier key and
optional type annotation). -/
inductive TsType where
  | keyword (k : TsKeywordKind)
  | litType (l : TsLitKind)
  | typeRef (name : TsEntityName) (params : Option (List TsType))
  | unionType (types : List TsType)
  | intersectionType (types : List TsType)
  | typeLit (members : List (String × Option TsType))
  | otherType

/-- Model of `crate::find_resolver_imports::JSImportType`. -/
inductive JSImportType where
  | Named (name : String)
  | Default
  | Namespace (location : Nat)
deriving DecidableEq, Repr

/-- Model of `crate::find_resolver_imports::ModuleResolutionKey`. -/
structure ModuleResolutionKey where
  module_name : String
  import_type : JSImportType
deriving DecidableEq, Repr

/-- Modelled from the spec: the per-file module resolution index
(`find_resolver_imports.rs` is not under src/): a map from local
identifier to `(declaring module path, import kind)`, built from the import
statements and the exported type aliases of the file. -/
structure ModuleResolution where
  imports : List (String × ModuleResolutionKey)
  exports : List (String × ModuleResolutionKey)
deriving DecidableEq, Repr

/-- Association lookup on `(String × _)` lists. -/
def assocFind {α : Type} (l : List (String × α)) (k : String) : Option α :=
  match l with
  | [] => none
  | (k0, v) :: rest => if k0 = k then some v else assocFind rest k

/-- Modelled from the spec: `ModuleResolution::get` resolves a local
identifier through the import index, falling back to the same-file
exported type-alias index. -/
def ModuleResolution.get (m : ModuleResolution) (name : String) :
    Option ModuleResolutionKey :=
  match assocFind m.imports name with
  | some key => some key
  | none => assocFind m.exports name

/-- The empty module resolution index. -/
def ModuleResolution.empty : ModuleResolution :=
  { imports := [], exports := [] }

/-- Model of `relay_config::CustomType`: a bare name or an import path. -/
inductive CustomType where
  | Name (name : String)
  | Path (name : String) (path : String)
deriving DecidableEq, Repr

/-- The custom scalar map (inverted): custom type reference to GraphQL
scalar name. -/
abbrev CustomScalarMap := List (CustomType × String)

/-- Lookup in the custom scalar map. -/
def lookupScalar (m : CustomScalarMap) (k : CustomType) : Option String :=
  match m with
  | [] => none
  | (k0, v) :: rest => if k0 = k then some v else lookupScalar rest k

/-- Model of `crate::errors::SchemaGenerationError`, restricted to the
variants reachable from the embedded functions.  Debug-formatted payloads
(`format!`) are dropped. -/
inductive SchemaGenError where
  | UnsupportedType
  | ExpectedFlowDefinitionForType (name : String)
  | StrongReturnTypeNotAllowed (typename : String)
  | ModuleNotFound (entity_name : String) (export_type : JSImportType)
      (module_name : String)
  | UnSupportedGeneric (name : String)
  | Todo
  | ExpectedFunctionOrTypeAlias
  | ExpectedNamedExport
  | IncorrectArgumentsDefinition
  | DuplicateTypeDefinitions (module_name : String)
      (import_type : JSImportType)
  | MissingParamType
  | MissingReturnType
  | LiveStateExpectedSingleGeneric
  | ObjectNotSupported
  | UseNamedOrDefaultImport
  | ExpectedWeakObjectToHaveFields
  | ExpectedTypeAliasToBeObject
  | UnexpectedNullableStrongType
deriving DecidableEq, Repr

/-- Result of `unwrap_nullable_type`: the effective type and the
optionality flag, a diagnostic, or a panic (`unwrap` on the empty
selection of non-null-marker union members). -/
inductive UnwrapResult where
  | panicked
  | err (e : SchemaGenError)
  | ok (t : TsType) (is_optional : Bool)

/-- Is this type a `null` or `undefined` keyword (the null markers of a
nullable union)? -/
def isNullMarker : TsType → Bool
  | TsType.keyword TsKeywordKind.nullKw => true
  | TsType.keyword TsKeywordKind.undefinedKw => true
  | _ => false

/-- Model of `unwrap_nullable_type` (typescript.rs lines 907-972): a union
is scanned for `null`/`undefined` members to compute optionality and the
first non-null-marker member is selected (`first().unwrap()` panics when
every member is a null marker); an intersection is an unsupported-type
diagnostic; any other type passes through with optionality `false`. -/
def unwrap_nullable_type : TsType → UnwrapResult
  | TsType.unionType types =>
    let is_required := (types.filter (fun t => isNullMarker t)).isEmpty
    match (types.filter (fun t => !(isNullMarker t))).head? with
    | none => UnwrapResult.panicked
    | some t => UnwrapResult.ok t (!is_required)
  | TsType.intersectionType _ => UnwrapResult.err SchemaGenError.UnsupportedType
  | t => UnwrapResult.ok t false

/-- Model of the GraphQL `graphql_syntax::TypeAnnotation` produced by the
translator (token/span data dropped). -/
inductive GqlTypeAnn where
  | Named (name : String)
  | ListAnn (inner : GqlTypeAnn)
  | NonNull (inner : GqlTypeAnn)
deriving DecidableEq, Repr

/-- Result of the return-type translator: the GraphQL annotation with the
semantic-non-null level list, a diagnostic, a panic, or exhaustion of the
structural fuel of the model (never reached for sufficient fuel). -/
inductive TranslateResult where
  | panicked
  | err (e : SchemaGenError)
  | ok (t : GqlTypeAnn) (levels : List Int)
  | outOfFuel
deriving DecidableEq, Repr

/-- Model of `get_unqualified_identifier_or_fail`. -/
def get_unqualified_identifier_or_fail (name : TsEntityName) :
    Except SchemaGenError String :=
  match name with
  | TsEntityName.qualified _ => Except.error SchemaGenError.UnsupportedType
  | TsEntityName.ident n => Except.ok n

/-- The final nullability step of the translator (typescript.rs lines
1242-1257): for a non-optional type, with semantic-non-null tracking push
level `0`, otherwise wrap in a classic non-null annotation and drop the
levels; an optional type is returned bare with the accumulated levels. -/
def finalize_nullability (use_semantic_non_null : Bool)
    (is_optional : Bool) (t : GqlTypeAnn) (levels : List Int) :
    TranslateResult :=
  if !is_optional then
    if use_semantic_non_null then
      TranslateResult.ok t (levels ++ [0])
    else
      TranslateResult.ok (GqlTypeAnn.NonNull t) []
  else
    TranslateResult.ok t levels

/-- Model of `relay_docblock::StrongObjectIr`, restricted to the fields
read back by the extractor (type name and location). -/
structure StrongObjectIrM where
  type_name : String
  location : Nat
deriving DecidableEq, Repr

/-- Model of `relay_docblock::WeakObjectIr`, restricted to the fields read
back by the extractor (type name and location). -/
structure WeakObjectIrM where
  type_name : String
  location : Nat
deriving DecidableEq, Repr

/-- Model of `relay_docblock::DocblockIr` restricted to the two
`ResolverTypeDocblockIr` variants stored in the type-definition table. -/
inductive DocblockIr where
  | strongObject (ir : StrongObjectIrM)
  | weakObject (ir : WeakObjectIrM)
deriving DecidableEq, Repr

/-- `DocblockIr::location`. -/
def DocblockIr.location : DocblockIr → Nat
  | DocblockIr.strongObject ir => ir.location
  | DocblockIr.weakObject ir => ir.location

/-- Association lookup in the global type-definition table. -/
def lookupTypeDef (l : List (ModuleResolutionKey × DocblockIr))
    (k : ModuleResolutionKey) : Option DocblockIr :=
  match l with
  | [] => none
  | (k0, v) :: rest => if k0 = k then some v else lookupTypeDef rest k

/-- The bare type-reference branch of the translator (no type parameters,
typescript.rs lines 1036-1087): consult the custom scalar map keyed by the
resolved module path or the bare name, then fall back to a registered weak
object type definition. -/
def translate_bare_type_ref (custom_scalar_map : CustomScalarMap)
    (module_resolution : ModuleResolution)
    (type_definitions : List (ModuleResolutionKey × DocblockIr))
    (idName : String) : Except SchemaGenError String :=
  let module_key_opt := module_resolution.get idName
  let scalar_key := match module_key_opt with
    | some key => CustomType.Path idName key.module_name
    | none => CustomType.Name idName
  match lookupScalar custom_scalar_map scalar_key with
  | some scalar_name => Except.ok scalar_name
  | none =>
    match module_key_opt with
    | none =>
      Except.error (SchemaGenError.ExpectedFlowDefinitionForType idName)
    | some module_key =>
      match lookupTypeDef type_definitions module_key with
      | some (DocblockIr.strongObject ir) =>
        Except.error (SchemaGenError.StrongReturnTypeNotAllowed ir.type_name)
      | some (DocblockIr.weakObject ir) => Except.ok ir.type_name
      | none =>
        Except.error (SchemaGenError.ModuleNotFound idName
          module_key.import_type module_key.module_name)

/-- Model of the return-type translator
`return_type_to_type_annotation` (typescript.rs lines 1017-1258).  `fuel`
bounds the structural recursion depth of the model; every reachable
behaviour of the source is obtained at sufficient fuel, and a single
unfolding step corresponds to one call of the source function.  Per call:
unwrap nullability, dispatch on the effective type (bare reference through
the custom-scalar map and the type-definition table; `Array` and
`ReadOnlyArray` recurse on the element with semantic-non-null tracking
disabled and shift the inner levels by one; `IdOf` demands a string
literal parameter; `RelayResolverValue` forces optionality; primitive
keywords map to `String`/`Float`/`Boolean`), then apply the final
nullability step. -/
def return_type_to_type_ann (fuel : Nat)
    (custom_scalar_map : CustomScalarMap)
    (module_resolution : ModuleResolution)
    (type_definitions : List (ModuleResolutionKey × DocblockIr))
    (use_semantic_non_null : Bool) (return_type : TsType) :
    TranslateResult :=
  match fuel with
  | 0 => TranslateResult.outOfFuel
  | fuel + 1 =>
    match unwrap_nullable_type return_type with
    | UnwrapResult.panicked => TranslateResult.panicked
    | UnwrapResult.err e => TranslateResult.err e
    | UnwrapResult.ok rt is_optional =>
      match rt with
      | TsType.typeRef tname params =>
        match get_unqualified_identifier_or_fail tname with
        | Except.error e => TranslateResult.err e
        | Except.ok idName =>
          match params with
          | none =>
            match translate_bare_type_ref custom_scalar_map
              module_resolution type_definitions idName with
            | Except.error e => TranslateResult.err e
            | Except.ok graphql_typename =>
              finalize_nullability use_semantic_non_null is_optional
                (GqlTypeAnn.Named graphql_typename) []
          | some [param] =>
            if idName = "Array" ∨ idName = "ReadOnlyArray" then
              match return_type_to_type_ann fuel custom_scalar_map
                module_resolution type_definitions false param with
              | TranslateResult.ok inner innerLevels =>
                finalize_nullability use_semantic_non_null is_optional
                  (GqlTypeAnn.ListAnn inner)
                  (innerLevels.map (fun level => level + 1))
              | r => r
            else if idName = "IdOf" then
              match param with
              | TsType.litType (TsLitKind.strLit s) =>
                finalize_nullability use_semantic_non_null is_optional
                  (GqlTypeAnn.Named s) []
              | _ => TranslateResult.err SchemaGenError.Todo
            else if idName = "RelayResolverValue" then
              finalize_nullability use_semantic_non_null true
                (GqlTypeAnn.Named ("RelayResolverValue")) []
            else
              TranslateResult.err (SchemaGenError.UnSupportedGeneric idName)
          | some _ => TranslateResult.err SchemaGenError.Todo
      | TsType.keyword TsKeywordKind.stringKw =>
        finalize_nullability use_semantic_non_null is_optional
          (GqlTypeAnn.Named ("String")) []
      | TsType.keyword TsKeywordKind.numberKw =>
        finalize_nullability use_semantic_non_null is_optional
          (GqlTypeAnn.Named ("Float")) []
      | TsType.keyword TsKeywordKind.booleanKw =>
        finalize_nullability use_semantic_non_null is_optional
          (GqlTypeAnn.Named ("Boolean")) []
      | TsType.litType (TsLitKind.boolLit _) =>
        finalize_nullability use_semantic_non_null is_optional
          (GqlTypeAnn.Named ("Boolean")) []
      | _ => TranslateResult.err SchemaGenError.UnsupportedType

/-- Model of `common::Diagnostic`: a message, a primary location, and the
secondary annotated locations added by `annotate`. -/
structure Diagnostic where
  message : SchemaGenError
  location : Nat
  related_information : List (String × Nat)
deriving DecidableEq, Repr

/-- `Diagnostic::error`. -/
def Diagnostic.error (e : SchemaGenError) (loc : Nat) : Diagnostic :=
  { message := e, location := loc, related_information := [] }

/-- `Diagnostic::annotate`: attach a secondary location with text. -/
def Diagnostic.annotate (d : Diagnostic) (text : String) (loc : Nat) :
    Diagnostic :=
  { d with related_information := d.related_information ++ [(text, loc)] }

/-- Model of `TSRelayResolverExtractor::insert_type_definition`
(typescript.rs lines 480-499): state-passing version of the mutation of
`self.type_definitions`.  On an occupied entry the table is returned
unchanged together with a duplicate-definition diagnostic located at the
new data and annotated with the previous definition location; on a vacant
entry the data is inserted. -/
def insert_type_definition
    (type_definitions : List (ModuleResolutionKey × DocblockIr))
    (key : ModuleResolutionKey) (data : DocblockIr) :
    List (ModuleResolutionKey × DocblockIr) × Option Diagnostic :=
  match lookupTypeDef type_definitions key with
  | some existing =>
    (type_definitions,
      some ((Diagnostic.error
        (SchemaGenError.DuplicateTypeDefinitions key.module_name
          key.import_type)
        data.location).annotate ("Previous type definition")
        existing.location))
  | none => (type_definitions ++ [(key, data)], none)

/-- Model of `swc_ecma_ast::Pat` as used for resolver parameters: an
identifier pattern with an optional type annotation, or any other
pattern. -/
inductive TsPat where
  | identPat (name : String) (type_ann : Option TsType)
  | otherPat

/-- Model of `swc_ecma_ast::FnDecl` restricted to what extraction reads:
function name, parameter patterns, optional return type annotation. -/
structure FnDeclData where
  name : String
  params : List TsPat
  return_type : Option TsType

/-- Model of `swc_ecma_ast::TsTypeAliasDecl`: alias name and
right-hand-side annotation. -/
structure TypeAliasData where
  name : String
  type_ann : TsType

/-- Model of `swc_ecma_ast::Decl`: the declaration shapes a module export
can carry. -/
inductive Decl where
  | fnDecl (f : FnDeclData)
  | tsTypeAlias (a : TypeAliasData)
  | classDecl
  | varDecl
  | usingDecl
  | tsInterfaceDecl
  | tsEnumDecl
  | tsModuleDecl

/-- Model of `swc_ecma_ast::ModuleItem` as classified by
`extract_graphql_types`: an `ExportDecl` module declaration, or any other
top-level item (plain statements, non-export module declarations). -/
inductive ModuleItem where
  | exportDecl (d : Decl)
  | otherItem

/-- Model of
`typescript_extract::extract_entity_type_from_resolver_function`: the
entity type is the annotation of the first parameter when present. -/
def extract_entity_type_from_resolver_function (params : List TsPat) :
    Except SchemaGenError (Option TsType) :=
  match params with
  | [] => Except.ok none
  | p :: _ =>
    match p with
    | TsPat.identPat _ (some ty) => Except.ok (some ty)
    | TsPat.identPat _ none => Except.error SchemaGenError.MissingParamType
    | TsPat.otherPat => Except.error SchemaGenError.UnsupportedType

/-- Model of `typescript_extract::extract_params_from_second_argument`:
the arguments type is the annotation of the second parameter identifier
pattern when present. -/
def extract_params_from_second_argument (params : List TsPat) :
    Except SchemaGenError (Option TsType) :=
  match params with
  | _ :: p :: _ =>
    match p with
    | TsPat.identPat _ (some ty) => Except.ok (some ty)
    | TsPat.identPat _ none => Except.error SchemaGenError.MissingParamType
    | TsPat.otherPat => Except.ok none
  | _ => Except.ok none

/-- Model of
`typescript_extract::extract_return_type_from_resolver_function`: demand a
return type annotation, reject qualified names and multiple type
parameters, and unwrap a `LiveState` generic wrapper to its single type
parameter, recording liveness (the `is_live` location is modelled as a
boolean). -/
def extract_return_type_from_resolver_function
    (return_type : Option TsType) :
    Except SchemaGenError (TsType × Bool) :=
  match return_type with
  | none => Except.error SchemaGenError.MissingReturnType
  | some rt =>
    match rt with
    | TsType.typeRef tname params =>
      match tname with
      | TsEntityName.qualified _ =>
        Except.error SchemaGenError.UnsupportedType
      | TsEntityName.ident n =>
        if (match params with
            | some ps => decide (ps.length > 1)
            | none => false) then
          Except.error SchemaGenError.UnsupportedType
        else if n = "LiveState" then
          match params with
          | none => Except.error SchemaGenError.LiveStateExpectedSingleGeneric
          | some ps =>
            match ps.head? with
            | none =>
              Except.error SchemaGenError.LiveStateExpectedSingleGeneric
            | some tp => Except.ok (tp, true)
        else Except.ok (rt, false)
    | _ => Except.ok (rt, false)

/-- Model of `FieldData` (typescript.rs). -/
structure FieldData where
  field_name : String
  return_type : TsType
  entity_type : Option TsType
  arguments : Option TsType
  is_live : Bool

/-- Model of `WeakObjectData` (typescript.rs). -/
structure WeakObjectData where
  field_name : String
  type_alias : TsType

/-- Model of `ResolverTypescriptData` (typescript.rs). -/
inductive ResolverTypescriptData where
  | Strong (d : FieldData)
  | Weak (d : WeakObjectData)

/-- Model of `TSRelayResolverExtractor::extract_function`. -/
def extract_function (node : FnDeclData) :
    Except SchemaGenError ResolverTypescriptData := do
  let field_name := node.name
  let rt ← extract_return_type_from_resolver_function node.return_type
  let entity_type ← extract_entity_type_from_resolver_function node.params
  let arguments ← extract_params_from_second_argument node.params
  Except.ok (ResolverTypescriptData.Strong
    { field_name, return_type := rt.1, entity_type, arguments,
      is_live := rt.2 })

/-- Model of `TSRelayResolverExtractor::extract_type_alias`. -/
def extract_type_alias (node : TypeAliasData) : WeakObjectData :=
  { field_name := node.name, type_alias := node.type_ann }

/-- Model of `TSRelayResolverExtractor::extract_graphql_types`
(typescript.rs lines 243-276): an exported function declaration yields
strong field data, an exported type alias yields weak object data, any
other exported declaration is the expected-function-or-type-alias
diagnostic, and every non-export statement is the expected-named-export
diagnostic. -/
def extract_graphql_types (node : ModuleItem) :
    Except SchemaGenError ResolverTypescriptData :=
  match node with
  | ModuleItem.exportDecl d =>
    match d with
    | Decl.fnDecl fn_node => extract_function fn_node
    | Decl.tsTypeAlias alias_node =>
      Except.ok (ResolverTypescriptData.Weak (extract_type_alias alias_node))
    | _ => Except.error SchemaGenError.ExpectedFunctionOrTypeAlias
  | ModuleItem.otherItem => Except.error SchemaGenError.ExpectedNamedExport


/-- A normalization definition named `1` originating from source location
`0`, with no metadata directives. -/
def normalizationDefA : OperationDefinition :=
  { name := { item := 1, sourceLocation := 0 }, split_metadata := none,
    artifact_source_key_data := none, refetchable_derived_from := none,
    client_edge_metadata := none, updatable := false }

/-- A normalization definition named `2` originating from the same source
location `0` as `normalizationDefA`. -/
def normalizationDefB : OperationDefinition :=
  { name := { item := 2, sourceLocation := 0 }, split_metadata := none,
    artifact_source_key_data := none, refetchable_derived_from := none,
    client_edge_metadata := none, updatable := false }

/-- A `Programs` input whose normalization program holds two definitions
with distinct names but the same originating source location. -/
def programsSameFile : Programs :=
  { normalization_operations := [normalizationDefA, normalizationDefB],
    operation_text_operations := [], reader_operations := [],
    typegen_operations := [], reader_fragments := [],
    typegen_fragments := [], source_fragments := [] }

/-- A normalization definition named `2` originating from source location
`7`, distinct from the location of `normalizationDefA`. -/
def normalizationDefC : OperationDefinition :=
  { name := { item := 2, sourceLocation := 7 }, split_metadata := none,
    artifact_source_key_data := none, refetchable_derived_from := none,
    client_edge_metadata := none, updatable := false }

/-- A `Programs` input whose normalization definitions carry pairwise
distinct source locations. -/
def programsTwoFiles : Programs :=
  { normalization_operations := [normalizationDefA, normalizationDefC],
    operation_text_operations := [], reader_operations := [],
    typegen_operations := [], reader_fragments := [],
    typegen_fragments := [], source_fragments := [] }

/-- An operation definition carrying split-operation metadata, a
resolver-hash marker, and (lower-priority) refetchable and client-edge
metadata at the same time. -/
def splitOpDef : OperationDefinition :=
  { name := { item := 3, sourceLocation := 4 },
    split_metadata := some
      { location := 9, derived_from := some 5,
        raw_response_type_generation_mode := none,
        parent_documents := [11, 12] },
    artifact_source_key_data := some 7,
    refetchable_derived_from := some 5,
    client_edge_metadata := some { item := 6, sourceLocation := 4 },
    updatable := false }

/-- An operation definition carrying none of the three metadata
directives. -/
def plainOpDef : OperationDefinition :=
  { name := { item := 21, sourceLocation := 22 }, split_metadata := none,
    artifact_source_key_data := none, refetchable_derived_from := none,
    client_edge_metadata := none, updatable := false }

/-- A concrete artifact from source file `5`. -/
def artifactA : Artifact :=
  { artifact_source_keys := [ArtifactSourceKey.ExecutableDefinition 1]
    path := 100
    content := ArtifactContent.SplitOperation plainOpDef none false none
    source_file := 5 }

/-- A second concrete artifact from source file `5`. -/
def artifactB : Artifact :=
  { artifact_source_keys := [ArtifactSourceKey.ResolverHash 2]
    path := 101
    content := ArtifactContent.SplitOperation plainOpDef none true none
    source_file := 5 }

/-- A concrete artifact from source file `6`. -/
def artifactC : Artifact :=
  { artifact_source_keys := [ArtifactSourceKey.ExecutableDefinition 3]
    path := 102
    content := ArtifactContent.SplitOperation plainOpDef none false none
    source_file := 6 }

/-- The module key of a strong object registration used in the duplicate
insertion witness. -/
def mrKeyT : ModuleResolutionKey :=
  { module_name := "some-module",
    import_type := JSImportType.Named ("ClientUser") }

/-- A strong object registration at location `10`. -/
def strongObjT : DocblockIr :=
  DocblockIr.strongObject { type_name := "ClientUser", location := 10 }

/-- A weak object registration at location `20` for the same key. -/
def weakObjT : DocblockIr :=
  DocblockIr.weakObject { type_name := "ClientUser", location := 20 }

theorem hmFind_hmInsert_self (m : List (SourceLocationKey × OperationGroup))
    (k : SourceLocationKey) (v : OperationGroup) :
    hmFind (hmInsert m k v) k = some v := by
  induction m with
  | nil => simp [hmInsert, hmFind]
  | cons e rest ih =>
    obtain ⟨k0, v0⟩ := e
    by_cases h : k0 = k
    · simp [hmInsert, hmFind, h]
    · simp [hmInsert, hmFind, h, ih]

theorem hmFind_foldl_insert_not_mem
    (init : OperationDefinition → OperationGroup)
    (ops : List OperationDefinition)
    (m : List (SourceLocationKey × OperationGroup)) (k : SourceLocationKey)
    (h : k ∉ ops.map (fun n => n.name.sourceLocation)) :
    hmFind (ops.foldl
      (fun m n => hmInsert m n.name.sourceLocation (init n)) m) k
      = hmFind m k := by
  induction ops generalizing m with
  | nil => rfl
  | cons n rest ih =>
    simp only [List.map_cons, List.mem_cons, not_or] at h
    rw [List.foldl_cons, ih _ h.2]
    clear ih
    induction m with
    | nil => simp [hmInsert, hmFind, Ne.symm h.1]
    | cons e rest2 ih2 =>
      obtain ⟨k0, v0⟩ := e
      by_cases hk : k0 = n.name.sourceLocation
      · subst hk
        simp [hmInsert, hmFind, h.1, Ne.symm h.1]
      · simp [hmInsert, hmFind, hk, ih2]

theorem hmFind_foldl_insert_mem
    (init : OperationDefinition → OperationGroup)
    (ops : List OperationDefinition)
    (m : List (SourceLocationKey × OperationGroup))
    (hnd : (ops.map (fun n => n.name.sourceLocation)).Nodup)
    (n : OperationDefinition) (hn : n ∈ ops) :
    hmFind (ops.foldl
      (fun m n => hmInsert m n.name.sourceLocation (init n)) m)
      n.name.sourceLocation = some (init n) := by
  induction ops generalizing m with
  | nil => cases hn
  | cons n0 rest ih =>
    rw [List.map_cons, List.nodup_cons] at hnd
    rcases List.mem_cons.mp hn with hn | hn
    · subst hn
      rw [List.foldl_cons,
        hmFind_foldl_insert_not_mem init rest _ _ hnd.1]
      exact hmFind_hmInsert_self _ _ _
    · exact ih _ hnd.2 hn

theorem hmFind_hmUpdate_self
    (m : List (SourceLocationKey × OperationGroup)) (k : SourceLocationKey)
    (f : OperationGroup → OperationGroup) (g : OperationGroup)
    (hg : hmFind m k = some g) :
    hmFind (hmUpdate m k f) k = some (f g) := by
  induction m with
  | nil => simp [hmFind] at hg
  | cons e rest ih =>
    obtain ⟨k0, v0⟩ := e
    by_cases h : k0 = k
    · subst h
      simp [hmFind] at hg
      simp [hmUpdate, hmFind, hg]
    · simp [hmFind, h] at hg
      simp [hmUpdate, hmFind, h, ih hg]

theorem hmFind_hmUpdate_ne
    (m : List (SourceLocationKey × OperationGroup))
    (k0 k : SourceLocationKey) (f : OperationGroup → OperationGroup)
    (h : k0 ≠ k) :
    hmFind (hmUpdate m k0 f) k = hmFind m k := by
  induction m with
  | nil => simp [hmUpdate, hmFind, h]
  | cons e rest ih =>
    obtain ⟨k1, v1⟩ := e
    by_cases hk : k1 = k0
    · subst hk
      simp [hmUpdate, hmFind, h]
    · simp [hmUpdate, hmFind, hk, ih]

theorem hmFind_foldl_update
    (setter : OperationDefinition → OperationGroup → OperationGroup)
    (hset : ∀ o g, (setter o g).normalization = g.normalization)
    (ops : List OperationDefinition)
    (m : List (SourceLocationKey × OperationGroup)) (k : SourceLocationKey)
    (g : OperationGroup) (hg : hmFind m k = some g) :
    ∃ g2, hmFind (ops.foldl
        (fun m o => hmUpdate m o.name.sourceLocation (setter o)) m) k
        = some g2 ∧ g2.normalization = g.normalization := by
  induction ops generalizing m g with
  | nil => exact ⟨g, hg, rfl⟩
  | cons o rest ih =>
    rw [List.foldl_cons]
    by_cases h : o.name.sourceLocation = k
    · subst h
      obtain ⟨g2, hg2, hn2⟩ := ih _ (setter o g)
        (hmFind_hmUpdate_self _ _ _ _ hg)
      exact ⟨g2, hg2, hn2.trans (hset o g)⟩
    · exact ih _ g ((hmFind_hmUpdate_ne _ _ _ _ h).trans hg)

/-- C1 counterexample: the grouping map is keyed by source location only,
so with two normalization definitions from the same source location the
map holds a single group whose normalization slot is the second
definition, and the first normalization definition is silently dropped
(it is the normalization slot of no group), contradicting the claim. -/
theorem C1_counterexample :
    group_operations programsSameFile =
      [(0, { normalization := some normalizationDefB,
             operation_text := none, reader := none, typegen := none })]
    ∧ ¬ ∃ e ∈ group_operations programsSameFile,
        e.2.normalization = some normalizationDefA := by
  decide

/-- C1 (amended): `group_operations` keys groups by originating source
location only; provided the normalization definitions carry pairwise
distinct source locations, the seeding inserts one entry per normalization
definition and the later passes never clear the normalization slot, so
every normalization definition appears as the normalization slot of the
group at its source location. -/
theorem C1_theorem (p : Programs)
    (hdist : (p.normalization_operations.map
      (fun n => n.name.sourceLocation)).Nodup)
    (n : OperationDefinition) (hn : n ∈ p.normalization_operations) :
    ∃ g, hmFind (group_operations p) n.name.sourceLocation = some g ∧
      g.normalization = some n := by
  simp only [group_operations]
  have h0 := hmFind_foldl_insert_mem seedGroup
    p.normalization_operations [] hdist n hn
  obtain ⟨g1, hg1, he1⟩ := hmFind_foldl_update
    (fun o g => { g with operation_text := some o }) (fun o g => rfl)
    p.operation_text_operations _ _ _ h0
  obtain ⟨g2, hg2, he2⟩ := hmFind_foldl_update
    (fun o g => { g with reader := some o }) (fun o g => rfl)
    p.reader_operations _ _ _ hg1
  obtain ⟨g3, hg3, he3⟩ := hmFind_foldl_update
    (fun o g => { g with typegen := some o }) (fun o g => rfl)
    p.typegen_operations _ _ _ hg2
  exact ⟨g3, hg3, by rw [he3, he2, he1]; rfl⟩

/-- C1 witness: concrete instantiation of the amended grouping theorem at
a two-definition normalization program with distinct source locations. -/
theorem C1_witness :
    ∃ g, hmFind (group_operations programsTwoFiles)
      normalizationDefA.name.sourceLocation = some g ∧
      g.normalization = some normalizationDefA :=
  C1_theorem programsTwoFiles (by decide) normalizationDefA (by decide)

/-- C3: for a normalization definition carrying split-operation metadata,
the artifact attribution-key list is exactly `[ResolverHash hash]` when a
resolver-hash marker directive is attached, and otherwise is the metadata
parent-document list mapped to `ExecutableDefinition` keys in order. -/
theorem C3_theorem
    (printer : OperationDefinition → Nat)
    (path_for : SourceLocationKey → StringKey → Nat)
    (source_hashes : StringKey → Option Nat) (programs : Programs)
    (ops : OperationGroup) (n : OperationDefinition)
    (m : SplitOperationMetadata)
    (hno : ops.normalization = some n) (hm : n.split_metadata = some m) :
    (∀ hash, n.artifact_source_key_data = some hash →
      (generate_operation_group printer path_for source_hashes programs
        ops).map (fun a => a.artifact_source_keys)
        = Except.ok [ArtifactSourceKey.ResolverHash hash])
    ∧ (n.artifact_source_key_data = none →
      (generate_operation_group printer path_for source_hashes programs
        ops).map (fun a => a.artifact_source_keys)
        = Except.ok (m.parent_documents.map
            ArtifactSourceKey.ExecutableDefinition)) := by
  constructor
  · intro hash hh
    simp [generate_operation_group, hno, hm, hh, Except.map]
  · intro hh
    simp [generate_operation_group, hno, hm, hh, Except.map]

/-- C3 witness: the split-operation attribution-key theorem applied at a
concrete group whose normalization definition carries both a resolver-hash
marker and a parent-document list. -/
theorem C3_witness :
    (generate_operation_group (fun _ => 0) (fun _ _ => 0) (fun _ => none)
      programsTwoFiles
      { normalization := some splitOpDef, operation_text := none,
        reader := none, typegen := none }).map
      (fun a => a.artifact_source_keys)
      = Except.ok [ArtifactSourceKey.ResolverHash 7] :=
  (C3_theorem (fun _ => 0) (fun _ _ => 0) (fun _ => none) programsTwoFiles
    _ splitOpDef _ rfl rfl).1 7 rfl

/-- C4: metadata is inspected in priority order split-operation, then
refetchable-derived-from, then client-edge-generated-query.  A definition
with split-operation metadata yields a SplitOperation artifact whatever
other metadata it carries; with only refetchable metadata the artifact is
an Operation attributed to the source fragment whatever client-edge
metadata it carries; with none of the three directives a full Operation
artifact attributed to the normalization definition itself is emitted. -/
theorem C4_theorem
    (printer : OperationDefinition → Nat)
    (path_for : SourceLocationKey → StringKey → Nat)
    (source_hashes : StringKey → Option Nat) (programs : Programs)
    (ops : OperationGroup) (n : OperationDefinition)
    (hno : ops.normalization = some n) :
    (∀ m, n.split_metadata = some m →
      generate_operation_group printer path_for source_hashes programs
        ops = Except.ok
        { artifact_source_keys :=
            match n.artifact_source_key_data with
            | some hash => [ArtifactSourceKey.ResolverHash hash]
            | none => m.parent_documents.map
                ArtifactSourceKey.ExecutableDefinition
          path := path_for m.location n.name.item
          content := ArtifactContent.SplitOperation n
            (if m.raw_response_type_generation_mode.isSome then some n
             else none)
            (m.raw_response_type_generation_mode =
              some RawResponseGenerationMode.AllFieldsRequired)
            (m.derived_from.bind source_hashes)
          source_file := m.location })
    ∧ (∀ source_name source_fragment source_hash r tg,
        n.split_metadata = none →
        n.refetchable_derived_from = some source_name →
        fragment_by_name programs.source_fragments source_name
          = some source_fragment →
        source_hashes source_name = some source_hash →
        ops.reader = some r → ops.typegen = some tg →
        generate_operation_group printer path_for source_hashes programs
          ops = Except.ok
          { artifact_source_keys :=
              [ArtifactSourceKey.ExecutableDefinition source_name]
            path := path_for source_fragment.name.sourceLocation n.name.item
            content := ArtifactContent.Operation n r tg ops.operation_text
              source_hash (ops.operation_text.map printer) none
            source_file := n.name.sourceLocation })
    ∧ (∀ source_hash r tg,
        n.split_metadata = none →
        n.refetchable_derived_from = none →
        n.client_edge_metadata = none →
        source_hashes n.name.item = some source_hash →
        ops.reader = some r → ops.typegen = some tg →
        generate_operation_group printer path_for source_hashes programs
          ops = Except.ok
          { artifact_source_keys :=
              [ArtifactSourceKey.ExecutableDefinition n.name.item]
            path := path_for n.name.sourceLocation n.name.item
            content := ArtifactContent.Operation n r tg ops.operation_text
              source_hash (ops.operation_text.map printer) none
            source_file := n.name.sourceLocation }) := by
  refine ⟨?_, ?_, ?_⟩
  · intro m hm
    simp [generate_operation_group, hno, hm]
  · intro source_name source_fragment source_hash r tg h1 h2 h3 h4 h5 h6
    simp [generate_operation_group, generate_normalization_artifact,
      OperationGroup.expect_reader, OperationGroup.expect_typegen,
      bind, Except.bind, hno, h1, h2, h3, h4, h5, h6]
  · intro source_hash r tg h1 h2 h3 h4 h5 h6
    simp [generate_operation_group, generate_normalization_artifact,
      OperationGroup.expect_reader, OperationGroup.expect_typegen,
      bind, Except.bind, hno, h1, h2, h3, h4, h5, h6]

/-- C4 witness: the classification theorem applied at a concrete group
with no metadata directives, yielding a full Operation artifact attributed
to the normalization definition itself. -/
theorem C4_witness :
    generate_operation_group (fun _ => 0) (fun l i => l + i)
      (fun _ => some 13) programsTwoFiles
      { normalization := some plainOpDef, operation_text := none,
        reader := some plainOpDef, typegen := some plainOpDef }
      = Except.ok
      { artifact_source_keys := [ArtifactSourceKey.ExecutableDefinition 21]
        path := 43
        content := ArtifactContent.Operation plainOpDef plainOpDef
          plainOpDef none 13 none none
        source_file := 22 } :=
  (C4_theorem (fun _ => 0) (fun l i => l + i) (fun _ => some 13)
    programsTwoFiles _ plainOpDef rfl).2.2 13 plainOpDef plainOpDef
    rfl rfl rfl rfl rfl rfl

/-- C5: a group with no normalization definition whose reader definition
(if any) does not carry the updatable marker makes `generate` terminate
abruptly with the descriptive panic message, rather than returning an
artifact or a user-facing diagnostic. -/
theorem C5_theorem
    (printer : OperationDefinition → Nat)
    (path_for : SourceLocationKey → StringKey → Nat)
    (source_hashes : StringKey → Option Nat) (programs : Programs)
    (ops : OperationGroup)
    (hno : ops.normalization = none)
    (hr : ∀ r, ops.reader = some r → r.updatable = false) :
    generate_operation_group printer path_for source_hashes programs ops
      = Except.error
        ("Expected at least one of an @updatable reader AST, or normalization AST to be present") := by
  cases h : ops.reader with
  | none => simp [generate_operation_group, hno, h]
  | some r => simp [generate_operation_group, hno, h, hr r h]

/-- C5 witness: the panic theorem applied at a concrete group holding only
a non-updatable reader definition. -/
theorem C5_witness :
    generate_operation_group (fun _ => 0) (fun _ _ => 0) (fun _ => none)
      programsTwoFiles
      { normalization := none, operation_text := none,
        reader := some plainOpDef, typegen := none }
      = Except.error
        ("Expected at least one of an @updatable reader AST, or normalization AST to be present") :=
  C5_theorem (fun _ => 0) (fun _ _ => 0) (fun _ => none) programsTwoFiles
    _ rfl (fun r h => by cases h; rfl)

theorem bucketFind_eq_none
    (m : List (SourceLocationKey × List Artifact)) (k : SourceLocationKey)
    (h : ∀ e ∈ m, e.1 ≠ k) : bucketFind m k = none := by
  induction m with
  | nil => rfl
  | cons e rest ih =>
    obtain ⟨k0, v0⟩ := e
    have h0 := h (k0, v0) (List.mem_cons_self _ _)
    simp only [bucketFind, if_neg h0]
    exact ih (fun e he => h e (List.mem_cons_of_mem _ he))

theorem bucketFind_btreePush_self
    (m : List (SourceLocationKey × List Artifact)) (k : SourceLocationKey)
    (a : Artifact)
    (hp : m.Pairwise (fun e1 e2 => e1.1 < e2.1)) :
    bucketFind (btreePush m k a) k
      = some ((bucketFind m k).getD [] ++ [a]) := by
  induction m with
  | nil => simp [btreePush, bucketFind]
  | cons e rest ih =>
    obtain ⟨k0, v0⟩ := e
    rw [List.pairwise_cons] at hp
    by_cases h1 : k < k0
    · have hne : k0 ≠ k := Ne.symm (Nat.ne_of_lt h1)
      have hrest : bucketFind rest k = none := by
        refine bucketFind_eq_none _ _ (fun e he => ?_)
        have hlt : k0 < e.1 := hp.1 e he
        exact Ne.symm (Nat.ne_of_lt (Nat.lt_trans h1 hlt))
      simp [btreePush, bucketFind, h1, hne, hrest]
    · by_cases h2 : k0 = k
      · subst h2
        simp [btreePush, bucketFind, h1]
      · simp [btreePush, bucketFind, h1, h2, ih hp.2]

theorem bucketFind_btreePush_ne
    (m : List (SourceLocationKey × List Artifact))
    (k0 k : SourceLocationKey) (a : Artifact) (h : k0 ≠ k) :
    bucketFind (btreePush m k0 a) k = bucketFind m k := by
  induction m with
  | nil => simp [btreePush, bucketFind, h]
  | cons e rest ih =>
    obtain ⟨k1, v1⟩ := e
    by_cases h1 : k0 < k1
    · simp [btreePush, bucketFind, h1, h]
    · by_cases h2 : k1 = k0
      · subst h2
        simp [btreePush, bucketFind, h1, h]
      · simp [btreePush, bucketFind, h1, h2, ih]

theorem btreePush_key_mem
    (m : List (SourceLocationKey × List Artifact)) (k : SourceLocationKey)
    (a : Artifact) (e : SourceLocationKey × List Artifact)
    (he : e ∈ btreePush m k a) :
    e.1 = k ∨ e.1 ∈ m.map Prod.fst := by
  induction m with
  | nil =>
    simp [btreePush] at he
    left; rw [he]
  | cons e0 rest ih =>
    obtain ⟨k0, v0⟩ := e0
    by_cases h1 : k < k0
    · simp only [btreePush, if_pos h1] at he
      rcases List.mem_cons.mp he with he | he
      · left; rw [he]
      · rcases List.mem_cons.mp he with he | he
        · right; rw [he]; simp
        · right
          simp only [List.map_cons, List.mem_cons]
          exact Or.inr (List.mem_map_of_mem Prod.fst he)
    · by_cases h2 : k0 = k
      · subst h2
        simp only [btreePush, if_neg h1, if_pos rfl] at he
        rcases List.mem_cons.mp he with he | he
        · left; rw [he]
        · right
          simp only [List.map_cons, List.mem_cons]
          exact Or.inr (List.mem_map_of_mem Prod.fst he)
      · simp only [btreePush, if_neg h1, if_neg h2] at he
        rcases List.mem_cons.mp he with he | he
        · right; rw [he]; simp
        · rcases ih he with h | h
          · exact Or.inl h
          · right
            simp only [List.map_cons, List.mem_cons]
            exact Or.inr h

theorem btreePush_pairwise
    (m : List (SourceLocationKey × List Artifact)) (k : SourceLocationKey)
    (a : Artifact)
    (hp : m.Pairwise (fun e1 e2 => e1.1 < e2.1)) :
    (btreePush m k a).Pairwise (fun e1 e2 => e1.1 < e2.1) := by
  induction m with
  | nil => simp [btreePush]
  | cons e0 rest ih =>
    obtain ⟨k0, v0⟩ := e0
    rw [List.pairwise_cons] at hp
    by_cases h1 : k < k0
    · simp only [btreePush, if_pos h1]
      rw [List.pairwise_cons]
      refine ⟨fun e he => ?_, List.pairwise_cons.mpr hp⟩
      rcases List.mem_cons.mp he with he | he
      · rw [he]; exact h1
      · have hlt : k0 < e.1 := hp.1 e he
        show k < e.1
        exact Nat.lt_trans h1 hlt
    · by_cases h2 : k0 = k
      · subst h2
        simp only [btreePush, if_neg h1, if_pos rfl]
        exact List.pairwise_cons.mpr ⟨hp.1, hp.2⟩
      · simp only [btreePush, if_neg h1, if_neg h2]
        rw [List.pairwise_cons]
        refine ⟨fun e he => ?_, ih hp.2⟩
        show k0 < e.1
        have hk0k : k0 < k :=
          Nat.lt_of_le_of_ne (Nat.le_of_not_lt h1) h2
        rcases btreePush_key_mem rest k a e he with h | h
        · rw [h]; exact hk0k
        · rcases List.mem_map.mp h with ⟨e1, he1, hk1⟩
          have hlt : k0 < e1.1 := hp.1 e1 he1
          rw [← hk1]; exact hlt

theorem foldl_btreePush_pairwise (arts : List Artifact)
    (m : List (SourceLocationKey × List Artifact))
    (hp : m.Pairwise (fun e1 e2 => e1.1 < e2.1)) :
    (arts.foldl (fun m a => btreePush m a.source_file a) m).Pairwise
      (fun e1 e2 => e1.1 < e2.1) := by
  induction arts generalizing m with
  | nil => exact hp
  | cons a rest ih => exact ih _ (btreePush_pairwise _ _ _ hp)

theorem bucketFind_foldl_some
    (arts : List Artifact) (m : List (SourceLocationKey × List Artifact))
    (k : SourceLocationKey) (v : List Artifact)
    (hp : m.Pairwise (fun e1 e2 => e1.1 < e2.1))
    (hv : bucketFind m k = some v) :
    bucketFind (arts.foldl (fun m a => btreePush m a.source_file a) m) k
      = some (v ++ arts.filter (fun a => a.source_file == k)) := by
  induction arts generalizing m v with
  | nil => simpa using hv
  | cons a rest ih =>
    rw [List.foldl_cons]
    by_cases h : a.source_file = k
    · subst h
      have hself := bucketFind_btreePush_self m a.source_file a hp
      rw [hv] at hself
      have hrec := ih (btreePush m a.source_file a) (v ++ [a])
        (btreePush_pairwise m _ a hp) (by simpa using hself)
      rw [hrec, List.filter_cons]
      simp
    · have hne := bucketFind_btreePush_ne m a.source_file k a h
      rw [List.filter_cons]
      have hcond : (a.source_file == k) = false := by
        simp [h]
      rw [hcond]
      simpa using ih _ v (btreePush_pairwise m _ a hp) (hne.trans hv)

theorem bucketFind_foldl_none
    (arts : List Artifact) (m : List (SourceLocationKey × List Artifact))
    (k : SourceLocationKey)
    (hp : m.Pairwise (fun e1 e2 => e1.1 < e2.1))
    (hv : bucketFind m k = none) :
    bucketFind (arts.foldl (fun m a => btreePush m a.source_file a) m) k
      = if (arts.filter (fun a => a.source_file == k)).isEmpty then none
        else some (arts.filter (fun a => a.source_file == k)) := by
  induction arts generalizing m with
  | nil => simpa using hv
  | cons a rest ih =>
    rw [List.foldl_cons]
    by_cases h : a.source_file = k
    · subst h
      have hself := bucketFind_btreePush_self m a.source_file a hp
      rw [hv] at hself
      have hrec := bucketFind_foldl_some rest (btreePush m a.source_file a)
        a.source_file [a] (btreePush_pairwise m _ a hp)
        (by simpa using hself)
      rw [hrec, List.filter_cons]
      simp
    · have hne := bucketFind_btreePush_ne m a.source_file k a h
      rw [List.filter_cons]
      have hcond : (a.source_file == k) = false := by
        simp [h]
      rw [hcond]
      simpa using ih _ (btreePush_pairwise m _ a hp) (hne.trans hv)

theorem filter_bucket_single
    (m : List (SourceLocationKey × List Artifact)) (k : SourceLocationKey)
    (v : List Artifact)
    (hp : m.Pairwise (fun e1 e2 => e1.1 < e2.1))
    (hv : bucketFind m k = some v) :
    m.filter (fun e => e.1 == k) = [(k, v)] := by
  induction m with
  | nil => simp [bucketFind] at hv
  | cons e rest ih =>
    obtain ⟨k0, v0⟩ := e
    rw [List.pairwise_cons] at hp
    by_cases h : k0 = k
    · subst h
      have hv0 : v0 = v := by simpa [bucketFind] using hv
      subst hv0
      have hrest : rest.filter (fun e => e.1 == k0) = [] := by
        rw [List.filter_eq_nil_iff]
        intro e he
        have hlt : k0 < e.1 := hp.1 e he
        simp [Ne.symm (Nat.ne_of_lt hlt)]
      rw [List.filter_cons]
      simp [hrest]
    · rw [List.filter_cons]
      have hcond : (((k0, v0) : SourceLocationKey × List Artifact).1 == k)
          = false := by simp [h]
      rw [hcond]
      simp only [bucketFind, if_neg h] at hv
      simpa using ih hp.2 hv

theorem filter_map_merge
    (m : List (SourceLocationKey × List Artifact))
    (k : SourceLocationKey) :
    ((m.map (fun e => merge_bucket e.1 e.2)).filter
      (fun a => a.source_file == k))
      = (m.filter (fun e => e.1 == k)).map
          (fun e => merge_bucket e.1 e.2) := by
  induction m with
  | nil => rfl
  | cons e rest ih =>
    rw [List.map_cons, List.filter_cons, List.filter_cons]
    have hsf : ∀ (a : SourceLocationKey) (b : List Artifact),
        (merge_bucket a b).source_file = a := fun _ _ => rfl
    by_cases h : e.1 = k
    · simp [hsf, h, ih]
    · simp [hsf, h, ih]

/-- C6: in the mixed output-language mode, all artifacts sharing a source
file are merged into exactly one artifact whose attribution-key list is
the concatenation of the constituent key lists in encounter order and
whose content payload list holds all constituent contents in encounter
order; in every other output mode the artifacts are returned one-to-one
as produced. -/
theorem C6_theorem (artifacts : List Artifact) (sf : SourceLocationKey)
    (h : (artifacts.filter (fun a => a.source_file == sf)).isEmpty
      = false) :
    ((generate_artifacts_post TypegenLanguage.TMPGraphQLToTypeScript
        artifacts).filter (fun a => a.source_file == sf))
      = [{ artifact_source_keys :=
             ((artifacts.filter (fun a => a.source_file == sf)).map
               (fun a => a.artifact_source_keys)).flatten
           path := (((artifacts.filter (fun a => a.source_file == sf)).map
             (fun a => a.path)).getLast?).getD 0
           content := ArtifactContent.TMPMixedGraphQL
             ((artifacts.filter (fun a => a.source_file == sf)).map
               (fun a => a.content))
           source_file := sf }]
    ∧ ∀ language, language ≠ TypegenLanguage.TMPGraphQLToTypeScript →
        generate_artifacts_post language artifacts = artifacts := by
  constructor
  · have hpf := foldl_btreePush_pairwise artifacts [] List.Pairwise.nil
    have hfind := bucketFind_foldl_none artifacts [] sf
      List.Pairwise.nil rfl
    rw [h] at hfind
    simp only [Bool.false_eq_true, if_false] at hfind
    simp only [generate_artifacts_post]
    rw [filter_map_merge, filter_bucket_single _ _ _ hpf hfind]
    rfl
  · intro language hl
    cases language
    · rfl
    · rfl
    · rfl
    · exact absurd rfl hl

/-- C6 witness: the mixed-output merging theorem applied at a concrete
list of three artifacts, two of which share source file `5`. -/
theorem C6_witness :
    ((generate_artifacts_post TypegenLanguage.TMPGraphQLToTypeScript
        [artifactA, artifactC, artifactB]).filter
        (fun a => a.source_file == 5))
      = [{ artifact_source_keys := [ArtifactSourceKey.ExecutableDefinition 1,
             ArtifactSourceKey.ResolverHash 2]
           path := 101
           content := ArtifactContent.TMPMixedGraphQL
             [ArtifactContent.SplitOperation plainOpDef none false none,
              ArtifactContent.SplitOperation plainOpDef none true none]
           source_file := 5 }] :=
  (C6_theorem [artifactA, artifactC, artifactB] 5 rfl).1

theorem lookupTypeDef_append_self
    (defs : List (ModuleResolutionKey × DocblockIr))
    (key : ModuleResolutionKey) (d : DocblockIr)
    (h : lookupTypeDef defs key = none) :
    lookupTypeDef (defs ++ [(key, d)]) key = some d := by
  induction defs with
  | nil => simp [lookupTypeDef]
  | cons e rest ih =>
    obtain ⟨k0, v0⟩ := e
    by_cases hk : k0 = key
    · simp [lookupTypeDef, hk] at h
    · simp only [lookupTypeDef, if_neg hk] at h ⊢
      exact ih h

/-- C7: each key of the global type-definition table is inserted at most
once; the first insertion succeeds, and a second insertion for the same
(module path, import kind) key fails with a duplicate-definition
diagnostic located at the new definition and annotated with the previously
registered location, while the table still holds the first registration
unchanged. -/
theorem C7_theorem (defs : List (ModuleResolutionKey × DocblockIr))
    (key : ModuleResolutionKey) (d1 d2 : DocblockIr)
    (h : lookupTypeDef defs key = none) :
    (insert_type_definition defs key d1).2 = none
    ∧ lookupTypeDef (insert_type_definition defs key d1).1 key = some d1
    ∧ insert_type_definition (insert_type_definition defs key d1).1 key d2
        = ((insert_type_definition defs key d1).1,
           some { message := SchemaGenError.DuplicateTypeDefinitions
                    key.module_name key.import_type
                  location := d2.location
                  related_information :=
                    [("Previous type definition", d1.location)] })
    ∧ lookupTypeDef
        (insert_type_definition (insert_type_definition defs key d1).1 key
          d2).1 key = some d1 := by
  have h1 : insert_type_definition defs key d1
      = (defs ++ [(key, d1)], none) := by
    simp [insert_type_definition, h]
  have h2 : lookupTypeDef (defs ++ [(key, d1)]) key = some d1 :=
    lookupTypeDef_append_self defs key d1 h
  refine ⟨by rw [h1], by rw [h1]; exact h2, ?_, ?_⟩
  · rw [h1]
    simp [insert_type_definition, h2, Diagnostic.error, Diagnostic.annotate]
  · rw [h1]
    simp [insert_type_definition, h2]

/-- C7 witness: the duplicate-insertion theorem applied at a concrete key
inserted twice. -/
theorem C7_witness :
    (insert_type_definition [] mrKeyT strongObjT).2 = none
    ∧ lookupTypeDef (insert_type_definition [] mrKeyT strongObjT).1 mrKeyT
        = some strongObjT
    ∧ insert_type_definition (insert_type_definition [] mrKeyT strongObjT).1
        mrKeyT weakObjT
        = ((insert_type_definition [] mrKeyT strongObjT).1,
           some { message := SchemaGenError.DuplicateTypeDefinitions
                    mrKeyT.module_name mrKeyT.import_type
                  location := weakObjT.location
                  related_information :=
                    [("Previous type definition", strongObjT.location)] })
    ∧ lookupTypeDef
        (insert_type_definition
          (insert_type_definition [] mrKeyT strongObjT).1 mrKeyT
          weakObjT).1 mrKeyT = some strongObjT :=
  C7_theorem [] mrKeyT strongObjT weakObjT rfl

theorem any_eq_not_isEmpty_filter (l : List TsType) (p : TsType → Bool) :
    (!(l.filter p).isEmpty) = l.any p := by
  induction l with
  | nil => rfl
  | cons a rest ih =>
    cases hp : p a
    · simp [List.filter_cons, List.any_cons, hp, ih]
    · simp [List.filter_cons, List.any_cons, hp]

/-- C10: the nullability unwrap panics on a union all of whose members are
null markers (for example `null | undefined`), and on a union with at
least one non-null-marker member it returns the first such member together
with optionality set exactly when a null/undefined member is present. -/
theorem C10_theorem :
    unwrap_nullable_type (TsType.unionType
      [TsType.keyword TsKeywordKind.nullKw,
       TsType.keyword TsKeywordKind.undefinedKw]) = UnwrapResult.panicked
    ∧ ∀ (types : List TsType) (t : TsType),
        (types.filter (fun x => !(isNullMarker x))).head? = some t →
        unwrap_nullable_type (TsType.unionType types)
          = UnwrapResult.ok t (types.any isNullMarker) := by
  constructor
  · rfl
  · intro types t h
    simp only [unwrap_nullable_type, h, any_eq_not_isEmpty_filter]

/-- C10 witness: the unwrap theorem applied at the union
`null | string`, returning the `string` member with optionality true. -/
theorem C10_witness :
    unwrap_nullable_type (TsType.unionType
      [TsType.keyword TsKeywordKind.nullKw,
       TsType.keyword TsKeywordKind.stringKw])
      = UnwrapResult.ok (TsType.keyword TsKeywordKind.stringKw) true :=
  C10_theorem.2 _ _ rfl

/-- C8: a generic type reference named `RelayResolverValue` always
translates to the bare named type `RelayResolverValue`: never wrapped in a
non-null annotation and with no semantic-non-null level pushed, for every
surrounding nullability and both tracking modes. -/
theorem C8_theorem (fuel : Nat) (csm : CustomScalarMap)
    (mr : ModuleResolution)
    (td : List (ModuleResolutionKey × DocblockIr))
    (usnn is_opt : Bool) (t param : TsType)
    (h : unwrap_nullable_type t = UnwrapResult.ok
      (TsType.typeRef (TsEntityName.ident ("RelayResolverValue"))
        (some [param])) is_opt) :
    return_type_to_type_ann (fuel + 1) csm mr td usnn t
      = TranslateResult.ok (GqlTypeAnn.Named ("RelayResolverValue")) [] := by
  cases usnn <;>
    simp [return_type_to_type_ann, h, get_unqualified_identifier_or_fail,
      finalize_nullability]

/-- C8 witness: `RelayResolverValue` translated at a syntactically
non-null annotation with tracking enabled still yields the bare
optional named type and no levels. -/
theorem C8_witness :
    return_type_to_type_ann 3 [] ModuleResolution.empty [] true
      (TsType.typeRef (TsEntityName.ident ("RelayResolverValue"))
        (some [TsType.keyword TsKeywordKind.stringKw]))
      = TranslateResult.ok (GqlTypeAnn.Named ("RelayResolverValue")) [] :=
  C8_theorem 2 [] ModuleResolution.empty [] true false _ _ rfl

/-- C2 counterexample: `ReadOnlyArray<string>` with semantic-non-null
tracking enabled translates to the list type `[String!]` (the element is
non-null-wrapped, because the element is translated with tracking
disabled) with semantic-non-null levels `[0]` — not to `[String]` with
levels `[1]` as claimed. -/
theorem C2_counterexample :
    return_type_to_type_ann 9 [] ModuleResolution.empty [] true
      (TsType.typeRef (TsEntityName.ident ("ReadOnlyArray"))
        (some [TsType.keyword TsKeywordKind.stringKw]))
      = TranslateResult.ok
        (GqlTypeAnn.ListAnn (GqlTypeAnn.NonNull (GqlTypeAnn.Named
          ("String")))) [0]
    ∧ return_type_to_type_ann 9 [] ModuleResolution.empty [] true
      (TsType.typeRef (TsEntityName.ident ("ReadOnlyArray"))
        (some [TsType.keyword TsKeywordKind.stringKw]))
      ≠ TranslateResult.ok
        (GqlTypeAnn.ListAnn (GqlTypeAnn.Named ("String"))) [1] := by
  decide

/-- C2 (amended): a non-null `ReadOnlyArray` reference translates its
element with semantic-non-null tracking disabled and shifts every level
returned by the inner translation by exactly one; concretely,
`ReadOnlyArray<string>` with tracking enabled yields `[String!]` (inner
element non-null-wrapped, since the disabled inner tracking takes the
classic non-null path) with level list `[0]` (the self level pushed by the
outer non-null step). -/
theorem C2_theorem :
    (∀ (fuel : Nat) (csm : CustomScalarMap) (mr : ModuleResolution)
      (td : List (ModuleResolutionKey × DocblockIr)) (usnn : Bool)
      (param : TsType),
      return_type_to_type_ann (fuel + 1) csm mr td usnn
        (TsType.typeRef (TsEntityName.ident ("ReadOnlyArray"))
          (some [param]))
      = match return_type_to_type_ann fuel csm mr td false param with
        | TranslateResult.ok inner innerLevels =>
            finalize_nullability usnn false (GqlTypeAnn.ListAnn inner)
              (innerLevels.map (fun level => level + 1))
        | r => r)
    ∧ ∀ (fuel : Nat) (csm : CustomScalarMap) (mr : ModuleResolution)
        (td : List (ModuleResolutionKey × DocblockIr)),
        return_type_to_type_ann (fuel + 2) csm mr td true
          (TsType.typeRef (TsEntityName.ident ("ReadOnlyArray"))
            (some [TsType.keyword TsKeywordKind.stringKw]))
        = TranslateResult.ok
          (GqlTypeAnn.ListAnn (GqlTypeAnn.NonNull (GqlTypeAnn.Named
            ("String")))) [0] := by
  constructor
  · intro fuel csm mr td usnn param
    cases h : return_type_to_type_ann fuel csm mr td false param <;>
      simp [return_type_to_type_ann, unwrap_nullable_type,
        get_unqualified_identifier_or_fail, h]
  · intro fuel csm mr td
    simp [return_type_to_type_ann, unwrap_nullable_type,
      get_unqualified_identifier_or_fail, finalize_nullability]

/-- C9 counterexample: a top-level statement with the resolver marker that
is not an exported declaration produces the expected-named-export
diagnostic, not the expected-function-or-type-alias diagnostic the claim
asserts for all non-function, non-type-alias statements. -/
theorem C9_counterexample :
    extract_graphql_types ModuleItem.otherItem
      = Except.error SchemaGenError.ExpectedNamedExport
    ∧ extract_graphql_types ModuleItem.otherItem
      ≠ Except.error SchemaGenError.ExpectedFunctionOrTypeAlias := by
  constructor
  · rfl
  · intro h
    simp [extract_graphql_types] at h

/-- C9 (amended): an exported declaration that is neither a function
declaration nor a type-alias declaration produces the user-facing
expected-function-or-type-alias diagnostic; a resolver-marked statement
that is not an exported declaration instead produces the
expected-named-export diagnostic. -/
theorem C9_theorem :
    (∀ d : Decl, (∀ f, d ≠ Decl.fnDecl f) →
      (∀ a, d ≠ Decl.tsTypeAlias a) →
      extract_graphql_types (ModuleItem.exportDecl d)
        = Except.error SchemaGenError.ExpectedFunctionOrTypeAlias)
    ∧ extract_graphql_types ModuleItem.otherItem
        = Except.error SchemaGenError.ExpectedNamedExport := by
  constructor
  · intro d h1 h2
    cases d with
    | fnDecl f => exact absurd rfl (h1 f)
    | tsTypeAlias a => exact absurd rfl (h2 a)
    | classDecl => rfl
    | varDecl => rfl
    | usingDecl => rfl
    | tsInterfaceDecl => rfl
    | tsEnumDecl => rfl
    | tsModuleDecl => rfl
  · rfl

/-- C9 witness: the amended scanner theorem applied at an exported class
declaration. -/
theorem C9_witness :
    extract_graphql_types (ModuleItem.exportDecl Decl.classDecl)
      = Except.error SchemaGenError.ExpectedFunctionOrTypeAlias :=
  C9_theorem.1 Decl.classDecl (fun _ h => nomatch h) (fun _ h => nomatch h)
